import Mathlib

/-!
Verification of the workflow-manifest validation and build-mode dispatch
logic of dx-toolkit, against a shallow embedding of
`src/python/dxpy/workflow_builder.py` and
`src/python/dxpy/executable_builder.py`.

JSON values are embedded as the inductive `JVal`; a JSON object is an
ordered association list (Python dicts preserve insertion order, and the
source iterates `keys()` in that order).  File systems are embedded as
partial maps from file name to file contents; reading the source
directory for readme inlining and build-mode detection only ever asks
whether a name exists and what its contents are.  Exceptions raised by
the Python code are embedded as `Except`/`Option BuildError` results, and
the in-place mutation of the manifest dict is embedded by threading the
manifest state explicitly and returning the final state even on error,
so that side effects observable to the caller after an exception are
visible in the model.
-/

/-- Embedded JSON value (the shapes produced by `json.load`). -/
inductive JVal where
  | null : JVal
  | bool : Bool → JVal
  | num : Int → JVal
  | str : String → JVal
  | list : List JVal → JVal
  | obj : List (String × JVal) → JVal

/-- A JSON object: ordered association list of key/value pairs. -/
abbrev JObj := List (String × JVal)

/-- A directory, as a map from file name to contents (`none` = absent). -/
abbrev FS := String → Option String

/-- Lookup of a key in an ordered JSON object (Python dict indexing). -/
def lookupKey : JObj → String → Option JVal
  | [], _ => none
  | (k, v) :: rest, key => if k = key then some v else lookupKey rest key

/-- Python `key in d` on a dict: key presence. -/
def hasKeyObj (s : JObj) (k : String) : Bool :=
  (lookupKey s k).isSome

/-- Python `d[key]` with a default; the default is only for totality,
every use site guards on `hasKeyObj` first, as the source does. -/
def getKeyD (s : JObj) (k : String) (d : JVal) : JVal :=
  (lookupKey s k).getD d

/-- Python `d[key] = v` on an ordered dict: replace in place if the key
is present, otherwise append at the end. -/
def setKey : JObj → String → JVal → JObj
  | [], key, v => [(key, v)]
  | (k, w) :: rest, key, v =>
      if k = key then (k, v) :: rest else (k, w) :: setKey rest key v

/-- The keys of a JSON object, in insertion order (Python `d.keys()`). -/
def keysOf (s : JObj) : List String :=
  s.map (fun kv => kv.1)

/-- Python truthiness of a JSON value (`if not x`). -/
def JVal.truthy : JVal → Bool
  | .null => false
  | .bool b => b
  | .num n => n != 0
  | .str s => s != ""
  | .list xs => !xs.isEmpty
  | .obj kvs => !kvs.isEmpty

/-- Python truthiness of an optional string (`None` and `""` are falsy). -/
def pyStrTruthy : Option String → Bool
  | none => false
  | some s => s != ""

/-- Python `",".join(xs)`. -/
def joinComma : List String → String
  | [] => ""
  | [s] => s
  | s :: rest => s ++ "," ++ joinComma rest

/-- Errors raised by the embedded code.  `workflowBuilderException` and
`executableBuilderException` embed the exception classes of the two
modules (the spec calls the former `ManifestError`); `typeError` embeds a
Python `TypeError` raised by evaluating an ill-typed expression. -/
inductive BuildError where
  | workflowBuilderException : String → BuildError
  | executableBuilderException : String → BuildError
  | typeError : String → BuildError

/-- Does the second character list start with the first one?
Helper for the substring check below. -/
def charsStartWith : List Char → List Char → Bool
  | [], _ => true
  | _ :: _, [] => false
  | a :: as, b :: bs => a == b && charsStartWith as bs

/-- Substring test on character lists. -/
def charsHaveSub (needle : List Char) : List Char → Bool
  | [] => needle.isEmpty
  | c :: rest => charsStartWith needle (c :: rest) || charsHaveSub needle rest

/-- Python `needle in hay` for strings: substring test. -/
def strContainsSub (hay needle : String) : Bool :=
  charsHaveSub needle.data hay.data

/-- Python `key in container` for an arbitrary JSON value: key test on a
dict, membership on a list, substring on a string, `TypeError` on values
that are not iterable. -/
def pyContains (container : JVal) (key : String) : Except BuildError Bool :=
  match container with
  | .obj kvs => .ok (hasKeyObj kvs key)
  | .list xs => .ok (xs.any fun v => match v with | .str s => s == key | _ => false)
  | .str s => .ok (strContainsSub s key)
  | _ => .error (.typeError "argument of type is not iterable")

/-!
## workflow_builder.py
-/

/-- Embeds `_add_project_to_spec` (workflow_builder.py lines 77-81): if
the manifest has no `project` key, set it to the ambient workspace id
(`dxpy.WORKSPACE_ID`, which may be `None`); then, if the resulting
`project` value is falsy, raise `WorkflowBuilderException("project not
set")`.  The function receives no CLI destination: the source never
passes one.  Returns the (possibly raised) error together with the final
state of the mutated manifest dict. -/
def _add_project_to_spec (json_spec : JObj) (workspace_id : JVal) :
    Option BuildError × JObj :=
  let json_spec :=
    if hasKeyObj json_spec "project" then json_spec
    else setKey json_spec "project" workspace_id
  if (getKeyD json_spec "project" JVal.null).truthy then (none, json_spec)
  else (some (BuildError.workflowBuilderException "project not set"), json_spec)

/-- The readme file names probed for `description`, in source order. -/
def readmeNames : List String := ["README.md", "Readme.md", "readme.md"]

/-- The readme file names probed for `developerNotes`, in source order. -/
def devReadmeNames : List String := ["README.developer.md", "Readme.developer.md", "readme.developer.md"]

/-- The find-first-existing loop of the `description` block of
`_inline_documentation_files`: first file name in the list that exists. -/
def findExistingFile (fs : FS) : List String → Option String
  | [] => none
  | n :: ns => if (fs n).isSome then some n else findExistingFile fs ns

/-- The `description` block of `_inline_documentation_files`
(workflow_builder.py lines 89-98): if `description` is absent, find the
first existing readme file and set `description` to its contents.  The
`getD ""` stands for reading the file whose existence the find loop just
established. -/
def inlineDescription (json_spec : JObj) (fs : FS) : JObj :=
  if hasKeyObj json_spec "description" then json_spec
  else
    match findExistingFile fs readmeNames with
    | some readme_filename =>
        setKey json_spec "description" (JVal.str ((fs readme_filename).getD ""))
    | none => json_spec

/-- The loop of the `developerNotes` block: probe each name in order;
on the first existing one, set `developerNotes` to its contents and
stop. -/
def devNotesLoop (fs : FS) : List String → JObj → JObj
  | [], json_spec => json_spec
  | filename :: rest, json_spec =>
      match fs filename with
      | some contents => setKey json_spec "developerNotes" (JVal.str contents)
      | none => devNotesLoop fs rest json_spec

/-- The `developerNotes` block of `_inline_documentation_files`
(workflow_builder.py lines 100-106). -/
def inlineDeveloperNotes (json_spec : JObj) (fs : FS) : JObj :=
  if hasKeyObj json_spec "developerNotes" then json_spec
  else devNotesLoop fs devReadmeNames json_spec

/-- Embeds `_inline_documentation_files` (workflow_builder.py lines
83-106): the `description` block followed by the `developerNotes`
block, both mutating the manifest in place. -/
def _inline_documentation_files (json_spec : JObj) (fs : FS) : JObj :=
  inlineDeveloperNotes (inlineDescription json_spec fs) fs

/-- Embeds `_get_unsupported_keys` (workflow_builder.py lines 108-112):
the keys, in order, that are not among the supported ones. -/
def _get_unsupported_keys (keys : List String) (supported_keys : List String) :
    List String :=
  keys.filter (fun key => !(supported_keys.contains key))

/-- Embeds `_get_validated_stage` (workflow_builder.py lines 114-133).
The source is faulty on every path that examines a stage:
* if `executable` is absent it evaluates
  `"executable is missing from stage number " + stage_index`
  (a format placeholder concatenated with an int via `+` instead of
  `.format`), which raises `TypeError` before any
  `WorkflowBuilderException` can be constructed;
* if `executable` is present it evaluates
  `set("id", "input", "executable", "name", "folder", "input")`, six
  positional arguments to `set`, which accepts at most one: `TypeError`.
The returned list of warnings is therefore never reached but is kept in
the type for fidelity with the `print` the source would perform. -/
def _get_validated_stage (stage : JVal) (stage_index : Nat) :
    Except BuildError (JVal × List String) :=
  match pyContains stage "executable" with
  | .error e => .error e
  | .ok has =>
      if !has then
        .error (.typeError "can only concatenate str and int")
      else
        .error (.typeError "set expected at most 1 argument, got 6")

/-- The `enumerate` loop of `_get_validated_stages`: validate each stage
with its index, accumulating validated stages and printed warnings;
warnings printed before a raise remain observable. -/
def validateStagesLoop : List JVal → Nat → Option BuildError × List JVal × List String
  | [], _ => (none, [], [])
  | stage :: rest, index =>
      match _get_validated_stage stage index with
      | .error e => (some e, [], [])
      | .ok (v, ws) =>
          let r := validateStagesLoop rest (index + 1)
          (r.1, v :: r.2.1, ws ++ r.2.2)

/-- Embeds `_get_validated_stages` (workflow_builder.py lines 135-143):
a non-list raises `WorkflowBuilderException`; otherwise each stage is
validated in order with its index. -/
def _get_validated_stages (stages : JVal) :
    Option BuildError × List JVal × List String :=
  match stages with
  | .list xs => validateStagesLoop xs 0
  | _ => (some (.workflowBuilderException "Stages must be specified as an array or mappings"), [], [])

/-- The supported root-level keys (workflow_builder.py line 151). -/
def supportedRootKeys : List String := ["project", "name", "outputFolder", "stages"]

/-- The warning printed for unsupported root-level keys
(workflow_builder.py lines 154-155). -/
def rootKeysWarning (unsupported_keys : List String) : String :=
  "Warning: the following root level fields are not supported and will be ignored: "
    ++ joinComma unsupported_keys

/-- Embeds `_get_validated_json` (workflow_builder.py lines 145-163).
Result components: the returned value or raised error (`Except`; the
Python bare `return` on the two early exits is `ok none`), the final
state of the caller-visible manifest dict, and the warnings printed.
Order of operations follows the source exactly: early exits, the
unsupported-key warning, documentation inlining, project resolution,
then stage validation. -/
def _get_validated_json (json_spec : JObj) (src_dir : Option String) (fs : FS)
    (workspace_id : JVal) :
    Except BuildError (Option JObj) × JObj × List String :=
  if json_spec.isEmpty then (.ok none, json_spec, [])
  else if !(pyStrTruthy src_dir) then (.ok none, json_spec, [])
  else
    let unsupported_keys := _get_unsupported_keys (keysOf json_spec) supportedRootKeys
    let warnings := if unsupported_keys.isEmpty then [] else [rootKeysWarning unsupported_keys]
    let spec1 := _inline_documentation_files json_spec fs
    match _add_project_to_spec spec1 workspace_id with
    | (some e, spec2) => (.error e, spec2, warnings)
    | (none, spec2) =>
        if hasKeyObj spec2 "stages" then
          match _get_validated_stages (getKeyD spec2 "stages" JVal.null) with
          | (some e, _, ws) => (.error e, spec2, warnings ++ ws)
          | (none, vs, ws) =>
              let spec3 := setKey spec2 "stages" (JVal.list vs)
              (.ok (some spec3), spec3, warnings ++ ws)
        else (.ok (some spec2), spec2, warnings)

/-- Embeds `build_workflow` (workflow_builder.py lines 176-185) after
manifest parsing: validate, then call `dxpy.api.workflow_new` on the
validated spec.  The boolean records whether the remote create call was
issued; on a validation error it is not. -/
def build_workflow (json_spec : JObj) (src_dir : Option String) (fs : FS)
    (workspace_id : JVal) (workflow_new : Option JObj → String) :
    Except BuildError String × Bool :=
  match (_get_validated_json json_spec src_dir fs workspace_id).1 with
  | .error e => (.error e, false)
  | .ok validated_spec => (.ok (workflow_new validated_spec), true)

/-!
## executable_builder.py
-/

/-- Embeds `_get_mode` (executable_builder.py lines 171-188): given the
contents of the source directory, return app mode if `dxapp.json`
exists, else workflow mode if `dxworkflow.json` exists, else raise
`ExecutableBuilderException`. -/
def _get_mode (src_dir : String) (fs : FS) : Except BuildError String :=
  if (fs "dxapp.json").isSome then .ok "app"
  else if (fs "dxworkflow.json").isSome then .ok "workflow"
  else .error (.executableBuilderException
    ("Directory " ++ src_dir ++ " does not contain dxapp.json nor dxworkflow.json: not a valid DNAnexus source directory"))

/-!
## Destination resolver (spec-modelled)

The destination resolver described in section 4.1 of the specification is
not among the source files under review (only the `--destination` flag
declaration in executable_builder.py is); it is modelled from the
specification text.
-/

/-- Modelled from the spec: the Destination record produced by the
destination resolver, which is not present in the reviewed source files.
`project`, `folder` and `name` may each be null. -/
structure Destination where
  project : Option String
  folder : Option String
  name : Option String

/-- Modelled from the spec: a bare container identifier is a fixed
literal prefix followed by an opaque id, with no path separators. -/
def isContainerId (s : String) : Bool :=
  charsStartWith "container-".data s.data
    && !(s.data.contains ':') && !(s.data.contains '/')

/-- Modelled from the spec: `resolve(destString)` for the destination
resolver, which is not present in the reviewed source files.  A bare
container identifier resolves to itself with null folder and name;
anything else is handed to the generic path-resolution delegate.  The
boolean records whether the delegate was invoked. -/
def resolve (delegate : String → Destination) (destString : String) :
    Destination × Bool :=
  if isContainerId destString then
    ({ project := some destString, folder := none, name := none }, false)
  else (delegate destString, true)

/-!
## Claim-side definitions

Definitions that follow the wording of the specification claims, for
comparison with the embedded source.
-/

/-- The destination-project resolution precedence exactly as the claims
word it: the CLI destination D if set, else the manifest project P if
present, else the ambient workspace W. -/
def claimResolvedProject (d p w : Option String) : Option String :=
  match d with
  | some d0 => some d0
  | none =>
      match p with
      | some p0 => some p0
      | none => w

/-- The unsupported root-level keys of a manifest: set difference of its
keys against the supported ones, in manifest order. -/
def unsupportedRootKeys (json_spec : JObj) : List String :=
  _get_unsupported_keys (keysOf json_spec) supportedRootKeys

/-- The contents of the first existing file among the given names, as
the claims word the readme search. -/
def firstContents (fs : FS) : List String → Option String
  | [] => none
  | n :: ns =>
      match fs n with
      | some c => some c
      | none => firstContents fs ns

/-- An empty source directory. -/
def fsEmpty : FS := fun _ => none

/-- A source directory holding only a `README.md` with contents
`hello`. -/
def fsReadmeHello : FS :=
  fun n => if n = "README.md" then some "hello" else none

/-!
## Helper lemmas
-/

theorem lookup_setKey_self (s : JObj) (key : String) (v : JVal) :
    lookupKey (setKey s key v) key = some v := by
  induction s with
  | nil => simp [setKey, lookupKey]
  | cons kv rest ih =>
      obtain ⟨k, w⟩ := kv
      by_cases h : k = key
      · simp [setKey, lookupKey, h]
      · simp [setKey, lookupKey, h, ih]

theorem lookup_setKey_other (s : JObj) (key k : String) (v : JVal)
    (h : k ≠ key) : lookupKey (setKey s key v) k = lookupKey s k := by
  induction s with
  | nil => simp [setKey, lookupKey, Ne.symm h]
  | cons kv rest ih =>
      obtain ⟨k0, w⟩ := kv
      by_cases h0 : k0 = key
      · subst h0
        simp [setKey, lookupKey, Ne.symm h]
      · simp [setKey, lookupKey, h0, ih]

theorem hasKey_setKey_self (s : JObj) (key : String) (v : JVal) :
    hasKeyObj (setKey s key v) key = true := by
  simp [hasKeyObj, lookup_setKey_self]

theorem hasKey_setKey_mono (s : JObj) (key k : String) (v : JVal)
    (h : hasKeyObj s k = true) : hasKeyObj (setKey s key v) k = true := by
  by_cases hk : k = key
  · subst hk; exact hasKey_setKey_self s k v
  · simpa [hasKeyObj, lookup_setKey_other s key k v hk] using h

theorem lookup_devNotesLoop_other (fs : FS) (ns : List String) (s : JObj)
    (k : String) (h : k ≠ "developerNotes") :
    lookupKey (devNotesLoop fs ns s) k = lookupKey s k := by
  induction ns generalizing s with
  | nil => rfl
  | cons n rest ih =>
      cases hfn : fs n with
      | some c => simp [devNotesLoop, hfn, lookup_setKey_other _ _ _ _ h]
      | none => simp [devNotesLoop, hfn, ih]

theorem lookup_inlineDescription_other (s : JObj) (fs : FS) (k : String)
    (h : k ≠ "description") :
    lookupKey (inlineDescription s fs) k = lookupKey s k := by
  unfold inlineDescription
  split
  · rfl
  · split
    · exact lookup_setKey_other _ _ _ _ h
    · rfl

theorem lookup_inlineDeveloperNotes_other (s : JObj) (fs : FS) (k : String)
    (h : k ≠ "developerNotes") :
    lookupKey (inlineDeveloperNotes s fs) k = lookupKey s k := by
  unfold inlineDeveloperNotes
  split
  · rfl
  · exact lookup_devNotesLoop_other fs devReadmeNames s k h

theorem lookup_inline_other (s : JObj) (fs : FS) (k : String)
    (h1 : k ≠ "description") (h2 : k ≠ "developerNotes") :
    lookupKey (_inline_documentation_files s fs) k = lookupKey s k := by
  unfold _inline_documentation_files
  rw [lookup_inlineDeveloperNotes_other _ _ _ h2,
      lookup_inlineDescription_other _ _ _ h1]

theorem hasKey_devNotesLoop_mono (fs : FS) (ns : List String) (s : JObj)
    (k : String) (h : hasKeyObj s k = true) :
    hasKeyObj (devNotesLoop fs ns s) k = true := by
  induction ns generalizing s with
  | nil => exact h
  | cons n rest ih =>
      cases hfn : fs n with
      | some c => simp [devNotesLoop, hfn, hasKey_setKey_mono _ _ _ _ h]
      | none => simp [devNotesLoop, hfn, ih s h]

theorem hasKey_inlineDescription_mono (s : JObj) (fs : FS) (k : String)
    (h : hasKeyObj s k = true) :
    hasKeyObj (inlineDescription s fs) k = true := by
  unfold inlineDescription
  split
  · exact h
  · split
    · exact hasKey_setKey_mono _ _ _ _ h
    · exact h

theorem hasKey_inlineDeveloperNotes_mono (s : JObj) (fs : FS) (k : String)
    (h : hasKeyObj s k = true) :
    hasKeyObj (inlineDeveloperNotes s fs) k = true := by
  unfold inlineDeveloperNotes
  split
  · exact h
  · exact hasKey_devNotesLoop_mono fs devReadmeNames s k h

theorem hasKey_inline_mono (s : JObj) (fs : FS) (k : String)
    (h : hasKeyObj s k = true) :
    hasKeyObj (_inline_documentation_files s fs) k = true :=
  hasKey_inlineDeveloperNotes_mono _ _ _
    (hasKey_inlineDescription_mono _ _ _ h)

theorem addProject_snd (s : JObj) (w : JVal) :
    (_add_project_to_spec s w).2
      = if hasKeyObj s "project" then s else setKey s "project" w := by
  unfold _add_project_to_spec
  dsimp only
  split <;> split <;> rfl

theorem addProject_fst (s : JObj) (w : JVal) :
    (_add_project_to_spec s w).1
      = if ((lookupKey s "project").getD w).truthy then none
        else some (BuildError.workflowBuilderException "project not set") := by
  unfold _add_project_to_spec
  dsimp only
  cases hl : lookupKey s "project" with
  | some v =>
      have hk : hasKeyObj s "project" = true := by simp [hasKeyObj, hl]
      simp only [hk, if_true, getKeyD, hl, Option.getD_some]
      split <;> simp_all
  | none =>
      have hk : hasKeyObj s "project" = false := by simp [hasKeyObj, hl]
      simp only [hk, Bool.false_eq_true, if_false, getKeyD,
        lookup_setKey_self, Option.getD_some, Option.getD_none]
      split <;> simp_all

theorem hasKey_addProject_mono (s : JObj) (w : JVal) (k : String)
    (h : hasKeyObj s k = true) :
    hasKeyObj (_add_project_to_spec s w).2 k = true := by
  rw [addProject_snd]
  split
  · exact h
  · exact hasKey_setKey_mono _ _ _ _ h

theorem stage_never_ok (stage : JVal) (i : Nat) (r : JVal × List String) :
    _get_validated_stage stage i ≠ Except.ok r := by
  unfold _get_validated_stage
  cases stage <;> simp [pyContains] <;> split <;> simp

theorem validateStagesLoop_warnings (xs : List JVal) (i : Nat) :
    (validateStagesLoop xs i).2.2 = [] := by
  cases xs with
  | nil => rfl
  | cons s rest =>
      unfold validateStagesLoop
      cases h : _get_validated_stage s i with
      | error e => simp [h]
      | ok r => exact absurd h (stage_never_ok s i r)

theorem stages_warnings_nil (v : JVal) :
    (_get_validated_stages v).2.2 = [] := by
  cases v <;> simp [_get_validated_stages, validateStagesLoop_warnings]

theorem findExistingFile_some (fs : FS) (ns : List String) (n : String)
    (h : findExistingFile fs ns = some n) :
    fs n = firstContents fs ns ∧ (fs n).isSome = true := by
  induction ns with
  | nil => simp [findExistingFile] at h
  | cons m rest ih =>
      by_cases hm : (fs m).isSome = true
      · have hmn : m = n := by simpa [findExistingFile, hm] using h
        subst hmn
        cases hc : fs m with
        | none => simp [hc] at hm
        | some c => simp [firstContents, hc]
      · have h' : findExistingFile fs rest = some n := by
          simpa [findExistingFile, hm] using h
        obtain ⟨h1, h2⟩ := ih h'
        cases hc : fs m with
        | some c => simp [hc] at hm
        | none => exact ⟨by simpa [firstContents, hc] using h1, h2⟩

theorem findExistingFile_none (fs : FS) (ns : List String)
    (h : findExistingFile fs ns = none) : firstContents fs ns = none := by
  induction ns with
  | nil => rfl
  | cons m rest ih =>
      by_cases hm : (fs m).isSome = true
      · simp [findExistingFile, hm] at h
      · have h' : findExistingFile fs rest = none := by
          simpa [findExistingFile, hm] using h
        cases hc : fs m with
        | some c => simp [hc] at hm
        | none => simpa [firstContents, hc] using ih h'

theorem devNotesLoop_lookup (fs : FS) (ns : List String) (s : JObj) :
    lookupKey (devNotesLoop fs ns s) "developerNotes"
      = match firstContents fs ns with
        | some c => some (JVal.str c)
        | none => lookupKey s "developerNotes" := by
  induction ns generalizing s with
  | nil => rfl
  | cons m rest ih =>
      cases hc : fs m with
      | some c => simp [devNotesLoop, firstContents, hc, lookup_setKey_self]
      | none => simp [devNotesLoop, firstContents, hc, ih]

theorem devNotesLoop_id_of_none (fs : FS) (ns : List String) (s : JObj)
    (h : firstContents fs ns = none) : devNotesLoop fs ns s = s := by
  induction ns generalizing s with
  | nil => rfl
  | cons m rest ih =>
      cases hc : fs m with
      | some c => simp [firstContents, hc] at h
      | none =>
          have h' : firstContents fs rest = none := by
            simpa [firstContents, hc] using h
          simp [devNotesLoop, hc, ih _ h']

theorem hasKey_devNotesLoop_of_some (fs : FS) (ns : List String) (s : JObj)
    (c : String) (h : firstContents fs ns = some c) :
    hasKeyObj (devNotesLoop fs ns s) "developerNotes" = true := by
  induction ns generalizing s with
  | nil => simp [firstContents] at h
  | cons m rest ih =>
      cases hc : fs m with
      | some c0 => simp [devNotesLoop, hc, hasKey_setKey_self]
      | none =>
          have h' : firstContents fs rest = some c := by
            simpa [firstContents, hc] using h
          simp [devNotesLoop, hc, ih _ h']

theorem inlineDescription_of_hasKey (s : JObj) (fs : FS)
    (h : hasKeyObj s "description" = true) : inlineDescription s fs = s := by
  unfold inlineDescription
  simp [h]

theorem inlineDescription_id_of_none (s : JObj) (fs : FS)
    (h : findExistingFile fs readmeNames = none) :
    inlineDescription s fs = s := by
  unfold inlineDescription
  rw [h]
  split <;> rfl

theorem hasKey_inlineDescription_of_some (s : JObj) (fs : FS) (n : String)
    (h : findExistingFile fs readmeNames = some n) :
    hasKeyObj (inlineDescription s fs) "description" = true := by
  unfold inlineDescription
  rw [h]
  split
  · assumption
  · exact hasKey_setKey_self _ _ _

theorem inlineDeveloperNotes_of_hasKey (s : JObj) (fs : FS)
    (h : hasKeyObj s "developerNotes" = true) :
    inlineDeveloperNotes s fs = s := by
  unfold inlineDeveloperNotes
  simp [h]

/-!
## Claims
-/

/-- C3 (code bug): a stage lacking `executable` is meant to fail with a
`WorkflowBuilderException` naming the stage index, and no create call
occurs.  The code instead evaluates
`"executable is missing from stage number " plus the int index` using
string concatenation, which raises `TypeError` before the exception is
built: the failure message never names the index.  No create call
occurs, as the claim states. -/
theorem c3_bug_eval :
    _get_validated_stage (JVal.obj []) 0
      = Except.error (BuildError.typeError "can only concatenate str and int")
    ∧ build_workflow [("stages", JVal.list [JVal.obj []])] (some "src") fsEmpty
        (JVal.str "project-W") (fun _ => "workflow-1")
      = (Except.error (BuildError.typeError "can only concatenate str and int"), false) :=
  ⟨rfl, rfl⟩

/-- C5 (code bug): the scenario manifest with one stage holding
`executable: applet-123` and ambient workspace `project-ABC` is meant to
validate successfully.  The code instead raises `TypeError` when
`_get_validated_stage` evaluates `set` applied to six positional
arguments (line 122), so the build fails and no create call occurs. -/
theorem c5_bug_eval :
    build_workflow
        [("stages", JVal.list [JVal.obj [("executable", JVal.str "applet-123")]])]
        (some "src") fsEmpty (JVal.str "project-ABC") (fun _ => "workflow-1")
      = (Except.error (BuildError.typeError "set expected at most 1 argument, got 6"),
         false) :=
  rfl

/-- C10 (confirmed): for every manifest object, when the source
directory argument is empty or absent, `_get_validated_json` returns no
result immediately: no error, no warning, and the manifest is left
untouched. -/
theorem c10_early_return (json_spec : JObj) (src_dir : Option String)
    (fs : FS) (workspace_id : JVal)
    (hsrc : pyStrTruthy src_dir = false) :
    _get_validated_json json_spec src_dir fs workspace_id
      = (Except.ok none, json_spec, []) := by
  unfold _get_validated_json
  rw [hsrc]
  split <;> rfl

/-- Witness for C10 at a non-empty manifest that violates every other
validation invariant, with an absent source directory. -/
theorem c10_early_return_witness :
    pyStrTruthy none = false
    ∧ _get_validated_json [("foo", JVal.num 1)] none fsEmpty JVal.null
        = (Except.ok none, [("foo", JVal.num 1)], []) :=
  ⟨rfl, c10_early_return [("foo", JVal.num 1)] none fsEmpty JVal.null rfl⟩

/-- C7 (confirmed): documentation inlining is idempotent for every
manifest and fixed file-system state, because fields already present are
never overwritten. -/
theorem c7_inline_idempotent (json_spec : JObj) (fs : FS) :
    _inline_documentation_files (_inline_documentation_files json_spec fs) fs
      = _inline_documentation_files json_spec fs := by
  unfold _inline_documentation_files
  set s1 := inlineDescription json_spec fs with hs1
  set s2 := inlineDeveloperNotes s1 fs with hs2
  have hA : inlineDescription s2 fs = s2 := by
    cases hf : findExistingFile fs readmeNames with
    | none => exact inlineDescription_id_of_none s2 fs hf
    | some n =>
        have h1 : hasKeyObj s1 "description" = true :=
          hasKey_inlineDescription_of_some json_spec fs n hf
        have h2 : hasKeyObj s2 "description" = true := by
          rw [hs2]
          have hlk := lookup_inlineDeveloperNotes_other s1 fs "description" (by decide)
          simpa [hasKeyObj, hlk] using h1
        exact inlineDescription_of_hasKey s2 fs h2
  have hB : inlineDeveloperNotes s2 fs = s2 := by
    by_cases hk : hasKeyObj s2 "developerNotes" = true
    · exact inlineDeveloperNotes_of_hasKey s2 fs hk
    · cases hfc : firstContents fs devReadmeNames with
      | some c =>
          exfalso
          apply hk
          rw [hs2]
          unfold inlineDeveloperNotes
          split
          · assumption
          · exact hasKey_devNotesLoop_of_some fs devReadmeNames s1 c hfc
      | none =>
          unfold inlineDeveloperNotes
          rw [if_neg hk]
          exact devNotesLoop_id_of_none fs devReadmeNames s2 hfc
  rw [hA, hB]

/-- C6 (confirmed): if `description` is absent, inlining sets it to the
full contents of the first existing file among `README.md`, `Readme.md`,
`readme.md` in that fixed order, and analogously for `developerNotes`
from the `README.developer.md` variants; values already present are
never overwritten. -/
theorem c6_inline_readme (json_spec : JObj) (fs : FS) :
    (hasKeyObj json_spec "description" = false →
      lookupKey (_inline_documentation_files json_spec fs) "description"
        = (firstContents fs readmeNames).map JVal.str)
    ∧ (hasKeyObj json_spec "description" = true →
      lookupKey (_inline_documentation_files json_spec fs) "description"
        = lookupKey json_spec "description")
    ∧ (hasKeyObj json_spec "developerNotes" = false →
      lookupKey (_inline_documentation_files json_spec fs) "developerNotes"
        = (firstContents fs devReadmeNames).map JVal.str)
    ∧ (hasKeyObj json_spec "developerNotes" = true →
      lookupKey (_inline_documentation_files json_spec fs) "developerNotes"
        = lookupKey json_spec "developerNotes") := by
  have hdesc : lookupKey (_inline_documentation_files json_spec fs) "description"
      = lookupKey (inlineDescription json_spec fs) "description" := by
    unfold _inline_documentation_files
    exact lookup_inlineDeveloperNotes_other _ fs "description" (by decide)
  refine ⟨fun h => ?_, fun h => ?_, fun h => ?_, fun h => ?_⟩
  · rw [hdesc]
    unfold inlineDescription
    rw [h]
    cases hf : findExistingFile fs readmeNames with
    | some n =>
        obtain ⟨h1, h2⟩ := findExistingFile_some fs readmeNames n hf
        cases hc : fs n with
        | none => simp [hc] at h2
        | some c =>
            rw [hc] at h1
            simp [lookup_setKey_self, hc, ← h1]
    | none =>
        have h0 : lookupKey json_spec "description" = none := by
          cases hl : lookupKey json_spec "description" with
          | none => rfl
          | some v => simp [hasKeyObj, hl] at h
        simp [findExistingFile_none fs readmeNames hf, h0]
  · rw [hdesc]
    rw [inlineDescription_of_hasKey json_spec fs h]
  · unfold _inline_documentation_files
    have hk1 : hasKeyObj (inlineDescription json_spec fs) "developerNotes" = false := by
      have hlk := lookup_inlineDescription_other json_spec fs "developerNotes" (by decide)
      simpa [hasKeyObj, hlk] using h
    have h0 : lookupKey json_spec "developerNotes" = none := by
      cases hl : lookupKey json_spec "developerNotes" with
      | none => rfl
      | some v => simp [hasKeyObj, hl] at h
    unfold inlineDeveloperNotes
    rw [if_neg (by simp [hk1])]
    rw [devNotesLoop_lookup]
    cases hfc : firstContents fs devReadmeNames with
    | some c => simp
    | none =>
        simp [lookup_inlineDescription_other json_spec fs "developerNotes" (by decide), h0]
  · unfold _inline_documentation_files
    have hk1 : hasKeyObj (inlineDescription json_spec fs) "developerNotes" = true := by
      have hlk := lookup_inlineDescription_other json_spec fs "developerNotes" (by decide)
      simpa [hasKeyObj, hlk] using h
    rw [inlineDeveloperNotes_of_hasKey _ fs hk1]
    exact lookup_inlineDescription_other json_spec fs "developerNotes" (by decide)

/-- Witness for C6: on the empty manifest with a source directory
holding `README.md` with contents `hello`, inlining sets `description`
to `hello` and leaves `developerNotes` unset. -/
theorem c6_inline_readme_witness :
    hasKeyObj [] "description" = false
    ∧ lookupKey (_inline_documentation_files [] fsReadmeHello) "description"
        = some (JVal.str "hello")
    ∧ hasKeyObj [] "developerNotes" = false
    ∧ lookupKey (_inline_documentation_files [] fsReadmeHello) "developerNotes"
        = none :=
  ⟨rfl, ((c6_inline_readme [] fsReadmeHello).1 rfl).trans rfl, rfl,
    ((c6_inline_readme [] fsReadmeHello).2.2.1 rfl).trans rfl⟩

/-- C8 (confirmed): build-mode detection returns app mode when the
source directory contains `dxapp.json` (regardless of `dxworkflow.json`,
so `dxapp.json` takes priority), workflow mode when only
`dxworkflow.json` exists, and raises `ExecutableBuilderException` when
neither exists. -/
theorem c8_get_mode (src_dir : String) (fs : FS) :
    ((fs "dxapp.json").isSome = true → _get_mode src_dir fs = Except.ok "app")
    ∧ (fs "dxapp.json" = none → (fs "dxworkflow.json").isSome = true →
        _get_mode src_dir fs = Except.ok "workflow")
    ∧ (fs "dxapp.json" = none → fs "dxworkflow.json" = none →
        _get_mode src_dir fs = Except.error (BuildError.executableBuilderException
          ("Directory " ++ src_dir
            ++ " does not contain dxapp.json nor dxworkflow.json: not a valid DNAnexus source directory"))) := by
  refine ⟨fun h1 => ?_, fun h1 h2 => ?_, fun h1 h2 => ?_⟩
  · unfold _get_mode
    rw [h1]
    rfl
  · unfold _get_mode
    rw [h1, h2]
    rfl
  · unfold _get_mode
    rw [h1, h2]
    rfl

/-- A source directory holding both `dxapp.json` and `dxworkflow.json`. -/
def fsBothManifests : FS :=
  fun n => if n = "dxapp.json" then some "x"
           else if n = "dxworkflow.json" then some "x" else none

/-- Witness for C8: with both manifest files present, app mode wins. -/
theorem c8_get_mode_witness :
    (fsBothManifests "dxapp.json").isSome = true
    ∧ (fsBothManifests "dxworkflow.json").isSome = true
    ∧ _get_mode "src" fsBothManifests = Except.ok "app" :=
  ⟨rfl, rfl, (c8_get_mode "src" fsBothManifests).1 rfl⟩

/-- C9 (confirmed, modelled from the spec): a destination string
matching the bare container-identifier pattern resolves to itself as the
project with null folder and name, and the generic path-resolution
delegate is not invoked. -/
theorem c9_resolve_container (delegate : String → Destination)
    (destString : String) (h : isContainerId destString = true) :
    resolve delegate destString
      = ({ project := some destString, folder := none, name := none }, false) := by
  unfold resolve
  rw [h]
  rfl

/-- Witness for C9 at a concrete container identifier, with a delegate
that would resolve everything to an empty destination if invoked. -/
theorem c9_resolve_container_witness :
    isContainerId "container-F8GpXk00bZq2Vv3z" = true
    ∧ resolve (fun _ => { project := none, folder := none, name := none })
        "container-F8GpXk00bZq2Vv3z"
      = ({ project := some "container-F8GpXk00bZq2Vv3z", folder := none, name := none },
         false) :=
  ⟨rfl, c9_resolve_container _ _ rfl⟩

/-- C1 counterexample: the code never consults a CLI destination and its
failure message is `project not set`.  With the manifest project absent
and ambient workspace `project-W`, the validated manifest resolves to
`project-W` no matter what CLI destination the invocation carried, while
the claim demands `project-D` when the CLI destination `project-D` is
set; and when nothing is available the raised message differs from the
claimed `destination project not set`. -/
theorem c1_counterexample :
    claimResolvedProject (some "project-D") none (some "project-W")
      = some "project-D"
    ∧ lookupKey (_get_validated_json [("stages", JVal.list [])] (some "src") fsEmpty
          (JVal.str "project-W")).2.1 "project" = some (JVal.str "project-W")
    ∧ "project-W" ≠ "project-D"
    ∧ (_get_validated_json [("name", JVal.str "x")] (some "src") fsEmpty JVal.null).1
        = Except.error (BuildError.workflowBuilderException "project not set")
    ∧ "project not set" ≠ "destination project not set" :=
  ⟨rfl, rfl, by decide, rfl, by decide⟩

/-- C1 amended: the resolved destination project equals the manifest
project field if that key is present, else the ambient workspace
identifier; the CLI destination is never consulted (the resolution
function does not receive one).  If the chosen value is unset or empty,
validation fails with a `WorkflowBuilderException` whose message is
`project not set`. -/
theorem c1_amended_project_precedence (json_spec : JObj) (workspace_id : JVal) :
    ((_add_project_to_spec json_spec workspace_id).1
        = if ((lookupKey json_spec "project").getD workspace_id).truthy then none
          else some (BuildError.workflowBuilderException "project not set"))
    ∧ lookupKey (_add_project_to_spec json_spec workspace_id).2 "project"
        = some ((lookupKey json_spec "project").getD workspace_id) := by
  refine ⟨addProject_fst json_spec workspace_id, ?_⟩
  rw [addProject_snd]
  cases hl : lookupKey json_spec "project" with
  | some v =>
      have hk : hasKeyObj json_spec "project" = true := by simp [hasKeyObj, hl]
      simp [hk, hl]
  | none =>
      have hk : hasKeyObj json_spec "project" = false := by simp [hasKeyObj, hl]
      simp [hk, lookup_setKey_self]

/-- The root-level warning list of a validation run: one warning naming
all unsupported root-level keys, or nothing when there are none. -/
def rootWarnings (json_spec : JObj) : List String :=
  if (unsupportedRootKeys json_spec).isEmpty then []
  else [rootKeysWarning (unsupportedRootKeys json_spec)]

/-- Unfolding of `_get_validated_json` on a non-empty manifest with a
truthy source directory: the two early exits are not taken. -/
theorem getValidatedJson_run (a : String × JVal) (as : JObj)
    (src_dir : Option String) (fs : FS) (workspace_id : JVal)
    (hsrc : pyStrTruthy src_dir = true) :
    _get_validated_json (a :: as) src_dir fs workspace_id
      = (match _add_project_to_spec (_inline_documentation_files (a :: as) fs)
              workspace_id with
         | (some e, spec2) => (Except.error e, spec2, rootWarnings (a :: as))
         | (none, spec2) =>
             if hasKeyObj spec2 "stages" then
               match _get_validated_stages (getKeyD spec2 "stages" JVal.null) with
               | (some e, _, ws) =>
                   (Except.error e, spec2, rootWarnings (a :: as) ++ ws)
               | (none, vs, ws) =>
                   (Except.ok (some (setKey spec2 "stages" (JVal.list vs))),
                    setKey spec2 "stages" (JVal.list vs),
                    rootWarnings (a :: as) ++ ws)
             else (Except.ok (some spec2), spec2, rootWarnings (a :: as))) := by
  unfold _get_validated_json
  rw [hsrc]
  rfl

/-- C2 counterexample: validating the scenario manifest with `foo: 1`
and an empty stage list (ambient workspace `project-W` supplied so that
validation can finish) emits the warning naming `foo`, but the returned
manifest STILL CONTAINS the `foo` key: unsupported keys are warned about
and kept, not removed. -/
theorem c2_counterexample :
    (_get_validated_json [("foo", JVal.num 1), ("stages", JVal.list [])]
        (some "src") fsEmpty (JVal.str "project-W")).2.2
      = ["Warning: the following root level fields are not supported and will be ignored: foo"]
    ∧ (_get_validated_json [("foo", JVal.num 1), ("stages", JVal.list [])]
        (some "src") fsEmpty (JVal.str "project-W")).1
      = Except.ok (some [("foo", JVal.num 1), ("stages", JVal.list []),
          ("project", JVal.str "project-W")])
    ∧ hasKeyObj [("foo", JVal.num 1), ("stages", JVal.list []),
          ("project", JVal.str "project-W")] "foo" = true :=
  ⟨rfl, rfl, rfl⟩

/-- C2 amended: for every non-empty manifest validated with a truthy
source directory, validation emits one warning listing every top-level
key outside the supported set (and no warning when there is none), but
it does NOT remove those keys: every top-level key of the input manifest
is still a key of the final manifest. -/
theorem c2_amended_keys_kept (json_spec : JObj) (src_dir : Option String)
    (fs : FS) (workspace_id : JVal)
    (hne : json_spec ≠ []) (hsrc : pyStrTruthy src_dir = true) :
    ((_get_validated_json json_spec src_dir fs workspace_id).2.2
        = if (unsupportedRootKeys json_spec).isEmpty then []
          else [rootKeysWarning (unsupportedRootKeys json_spec)])
    ∧ ∀ k, hasKeyObj json_spec k = true →
        hasKeyObj (_get_validated_json json_spec src_dir fs workspace_id).2.1 k
          = true := by
  cases json_spec with
  | nil => exact absurd rfl hne
  | cons a as =>
      have hkeep : ∀ k, hasKeyObj (a :: as) k = true →
          hasKeyObj (_add_project_to_spec (_inline_documentation_files (a :: as) fs)
            workspace_id).2 k = true :=
        fun k hk => hasKey_addProject_mono _ _ _ (hasKey_inline_mono _ _ _ hk)
      rcases hap : _add_project_to_spec (_inline_documentation_files (a :: as) fs)
          workspace_id with ⟨err, spec2⟩
      have hkeep2 : ∀ k, hasKeyObj (a :: as) k = true →
          hasKeyObj spec2 k = true := by
        intro k hk
        have h0 := hkeep k hk
        rw [hap] at h0
        exact h0
      rw [getValidatedJson_run a as src_dir fs workspace_id hsrc, hap]
      cases err with
      | some e => exact ⟨rfl, fun k hk => hkeep2 k hk⟩
      | none =>
          dsimp only
          by_cases hst : hasKeyObj spec2 "stages" = true
          · rw [if_pos hst]
            rcases hgs : _get_validated_stages (getKeyD spec2 "stages" JVal.null)
              with ⟨serr, vs, ws⟩
            have hws : ws = [] := by
              have h0 := stages_warnings_nil (getKeyD spec2 "stages" JVal.null)
              rw [hgs] at h0
              exact h0
            subst hws
            cases serr with
            | some e =>
                exact ⟨by simp [rootWarnings], fun k hk => hkeep2 k hk⟩
            | none =>
                exact ⟨by simp [rootWarnings],
                  fun k hk => hasKey_setKey_mono _ _ _ _ (hkeep2 k hk)⟩
          · rw [if_neg hst]
            exact ⟨rfl, fun k hk => hkeep2 k hk⟩

/-- Witness for C2 amended at the scenario manifest: the `foo` key is
still present in the validated manifest. -/
theorem c2_amended_keys_kept_witness :
    ([("foo", JVal.num 1), ("stages", JVal.list [])] : JObj) ≠ []
    ∧ pyStrTruthy (some "src") = true
    ∧ hasKeyObj (_get_validated_json [("foo", JVal.num 1), ("stages", JVal.list [])]
        (some "src") fsEmpty (JVal.str "project-W")).2.1 "foo" = true :=
  ⟨List.cons_ne_nil _ _, rfl,
    (c2_amended_keys_kept [("foo", JVal.num 1), ("stages", JVal.list [])]
      (some "src") fsEmpty (JVal.str "project-W")
      (List.cons_ne_nil _ _) rfl).2 "foo" rfl⟩

/-- C4 counterexample: a manifest with no `project` field validated with
no ambient workspace does fail with the project-not-set error, but only
AFTER documentation inlining has run: with a readme present the failed
run leaves `description` set on the caller-visible manifest, and with an
empty directory it does not, so the observable state depends on the
file system, contradicting the claimed failure before any inlining side
effect. -/
theorem c4_counterexample :
    (_get_validated_json [("name", JVal.str "x")] (some "src") fsReadmeHello
        JVal.null).1
      = Except.error (BuildError.workflowBuilderException "project not set")
    ∧ lookupKey (_get_validated_json [("name", JVal.str "x")] (some "src")
        fsReadmeHello JVal.null).2.1 "description" = some (JVal.str "hello")
    ∧ lookupKey (_get_validated_json [("name", JVal.str "x")] (some "src")
        fsEmpty JVal.null).2.1 "description" = none :=
  ⟨rfl, rfl, rfl⟩

/-- C4 amended: for every non-empty manifest without a `project` key,
validated with a truthy source directory and no ambient workspace,
validation fails with `WorkflowBuilderException` message
`project not set`, but the failure occurs after documentation inlining:
the final caller-visible manifest is the inlined manifest (with the
null project appended), so inlining side effects are observable and
depend on the file-system state. -/
theorem c4_amended_inline_before_fail (json_spec : JObj)
    (src_dir : Option String) (fs : FS)
    (hne : json_spec ≠ []) (hsrc : pyStrTruthy src_dir = true)
    (hnp : hasKeyObj json_spec "project" = false) :
    (_get_validated_json json_spec src_dir fs JVal.null).1
        = Except.error (BuildError.workflowBuilderException "project not set")
    ∧ (_get_validated_json json_spec src_dir fs JVal.null).2.1
        = setKey (_inline_documentation_files json_spec fs) "project" JVal.null := by
  cases json_spec with
  | nil => exact absurd rfl hne
  | cons a as =>
      have hp1 : hasKeyObj (_inline_documentation_files (a :: as) fs) "project"
          = false := by
        have hlk := lookup_inline_other (a :: as) fs "project" (by decide) (by decide)
        simpa [hasKeyObj, hlk] using hnp
      have hl : lookupKey (_inline_documentation_files (a :: as) fs) "project"
          = none := by
        cases hc : lookupKey (_inline_documentation_files (a :: as) fs) "project" with
        | none => rfl
        | some v => simp [hasKeyObj, hc] at hp1
      have h1 := addProject_fst (_inline_documentation_files (a :: as) fs) JVal.null
      have h2 := addProject_snd (_inline_documentation_files (a :: as) fs) JVal.null
      rw [hl] at h1
      simp only [Option.getD_none, JVal.truthy, Bool.false_eq_true, if_false] at h1
      rw [hp1] at h2
      simp only [Bool.false_eq_true, if_false] at h2
      have hpair : _add_project_to_spec (_inline_documentation_files (a :: as) fs)
          JVal.null
          = (some (BuildError.workflowBuilderException "project not set"),
             setKey (_inline_documentation_files (a :: as) fs) "project" JVal.null) :=
        Prod.ext h1 h2
      rw [getValidatedJson_run a as src_dir fs JVal.null hsrc, hpair]
      exact ⟨rfl, rfl⟩

/-- Witness for C4 amended at the concrete manifest with only a `name`
key and a source directory holding `README.md`. -/
theorem c4_amended_inline_before_fail_witness :
    ([("name", JVal.str "x")] : JObj) ≠ []
    ∧ pyStrTruthy (some "src") = true
    ∧ hasKeyObj [("name", JVal.str "x")] "project" = false
    ∧ (_get_validated_json [("name", JVal.str "x")] (some "src") fsReadmeHello
        JVal.null).2.1
      = setKey (_inline_documentation_files [("name", JVal.str "x")] fsReadmeHello)
          "project" JVal.null :=
  ⟨List.cons_ne_nil _ _, rfl, rfl,
    (c4_amended_inline_before_fail [("name", JVal.str "x")] (some "src")
      fsReadmeHello (List.cons_ne_nil _ _) rfl rfl).2⟩
